import Mathlib

/-!
Shallow embedding of the SecretSanta Solidity contract
(src/smart-contracts, contract `SecretSanta`).

Addresses are modelled as naturals, Solidity mappings as total functions
with the zero default, `euint32` values as naturals reduced modulo `2 ^ 32`
where the 32-bit width matters, and reverts as `Except.error`.
Each external function of the contract becomes a Lean function from the
explicit call context (current block timestamp `now`, message sender,
message value, FHE randomness where the contract draws it) and the
contract state to `Except SolError State`.
-/

namespace SecretSanta

/-- The phase enumeration `GamePhase` of the contract. -/
inductive GamePhase where
  | Registration
  | Matching
  | GiftSubmission
  | WaitingReveal
  | Revealed
deriving DecidableEq, Repr

/-- Revert reasons of the contract: the declared custom errors plus the
string messages used by `require`, and the proof-rejection revert raised
inside `FHE.fromExternal`. -/
inductive SolError where
  | OnlyOwner
  | InvalidPhase
  | DeadlinePassed
  | DeadlineNotReached
  | AlreadyRegistered
  | NotRegistered
  | GameFull
  | IncorrectEntryFee
  | InsufficientParticipants
  | AlreadySubmittedGift
  | InvalidProof
  | RequireMsg (msg : String)
deriving DecidableEq, Repr

/-- The storage of the `SecretSanta` contract. -/
structure State where
  owner : ℕ
  registrationDeadline : ℕ
  giftSubmissionDeadline : ℕ
  revealTime : ℕ
  entryFee : ℕ
  minParticipants : ℕ
  maxParticipants : ℕ
  currentPhase : GamePhase
  participants : List ℕ
  participantIndex : ℕ → ℕ
  isParticipant : ℕ → Bool
  participantCount : ℕ
  encryptedMatchingOffset : ℕ
  matchingGenerated : Bool
  encryptedGiftValues : ℕ → ℕ
  giftMetadataURIs : ℕ → String
  hasSubmittedGift : ℕ → Bool
  giftsSubmittedCount : ℕ
  revealedRecipients : ℕ → ℕ
  revealedGiftValues : ℕ → ℕ
  revealedOffset : ℕ

/-- `FHE.select(c, a, b)`: conditional select over confidential values.
Both branch values are operands of the primitive; the plaintext content is
the selected operand. -/
def fheSelect (c : Bool) (a b : ℕ) : ℕ :=
  if c then a else b

/-- The offset pipeline of `_generateMatches`: reduce the raw random
32-bit value modulo the participant count, then replace a zero candidate
with 1 through `FHE.select`. -/
def generateOffsetValue (raw n : ℕ) : ℕ :=
  let offsetMod := raw % n
  let isZero := offsetMod == 0
  fheSelect isZero 1 offsetMod

/-- The recipient-index derivation `(i + offset) % participantCount` used
by the reveal loop of `triggerReveal` (plain `uint256` arithmetic). -/
def recipientIndexOf (i o n : ℕ) : ℕ :=
  (i + o) % n

/-- The recipient-index derivation of `getMyRecipientEncrypted`:
`FHE.add` over `euint32` wraps modulo `2 ^ 32`, then `FHE.rem` by the
plaintext participant count. -/
def encRecipientIndexOf (i o n : ℕ) : ℕ :=
  ((i + o) % 2 ^ 32) % n

/-- The constructor: validates the participant bounds and derives the
three chained deadlines from `block.timestamp` and the durations. -/
def deploy (now sender registrationPeriod giftSubmissionPeriod revealDelay
    fee minP maxP : ℕ) : Except SolError State :=
  if ¬ 3 ≤ minP then .error (.RequireMsg "Need at least 3 participants")
  else if ¬ maxP ≤ 256 then .error (.RequireMsg "Max 256 participants")
  else if ¬ minP ≤ maxP then .error (.RequireMsg "Invalid participant limits")
  else
    let regDeadline := now + registrationPeriod
    let subDeadline := regDeadline + giftSubmissionPeriod
    let revTime := subDeadline + revealDelay
    .ok {
      owner := sender
      registrationDeadline := regDeadline
      giftSubmissionDeadline := subDeadline
      revealTime := revTime
      entryFee := fee
      minParticipants := minP
      maxParticipants := maxP
      currentPhase := GamePhase.Registration
      participants := []
      participantIndex := fun _ => 0
      isParticipant := fun _ => false
      participantCount := 0
      encryptedMatchingOffset := 0
      matchingGenerated := false
      encryptedGiftValues := fun _ => 0
      giftMetadataURIs := fun _ => ""
      hasSubmittedGift := fun _ => false
      giftsSubmittedCount := 0
      revealedRecipients := fun _ => 0
      revealedGiftValues := fun _ => 0
      revealedOffset := 0 }

/-- `register()`: phase modifier, then deadline, duplicate, capacity and
fee checks, then the participant append. -/
def register (now sender msgValue : ℕ) (s : State) : Except SolError State :=
  if s.currentPhase ≠ GamePhase.Registration then .error .InvalidPhase
  else if s.registrationDeadline ≤ now then .error .DeadlinePassed
  else if s.isParticipant sender then .error .AlreadyRegistered
  else if s.maxParticipants ≤ s.participantCount then .error .GameFull
  else if msgValue ≠ s.entryFee then .error .IncorrectEntryFee
  else .ok { s with
    participants := s.participants ++ [sender]
    participantIndex := Function.update s.participantIndex sender s.participantCount
    isParticipant := Function.update s.isParticipant sender true
    participantCount := s.participantCount + 1 }

/-- `startMatching()`: `onlyOwner` then `inPhase(Registration)` modifiers,
the deadline-or-full and quorum checks, then `_generateMatches` (guarded by
the matching-generated flag) and the advance to GiftSubmission. `raw` is
the fresh random value drawn by `FHE.randEuint32`, a 32-bit value. -/
def startMatching (now sender raw : ℕ) (s : State) : Except SolError State :=
  if sender ≠ s.owner then .error .OnlyOwner
  else if s.currentPhase ≠ GamePhase.Registration then .error .InvalidPhase
  else if now < s.registrationDeadline ∧ s.participantCount < s.maxParticipants then
    .error .DeadlineNotReached
  else if s.participantCount < s.minParticipants then .error .InsufficientParticipants
  else if s.matchingGenerated then .error (.RequireMsg "Matches already generated")
  else .ok { s with
    currentPhase := GamePhase.GiftSubmission
    encryptedMatchingOffset := generateOffsetValue (raw % 2 ^ 32) s.participantCount
    matchingGenerated := true }

/-- `getMyRecipientEncrypted()`: `onlyParticipant` modifier, then the
matching-generated require, then the phase require, then the encrypted
derivation of the recipient index returned to the caller. -/
def getMyRecipientEncrypted (sender : ℕ) (s : State) : Except SolError ℕ :=
  if ¬ s.isParticipant sender then .error .NotRegistered
  else if ¬ s.matchingGenerated then .error (.RequireMsg "Matching not yet generated")
  else if s.currentPhase ≠ GamePhase.GiftSubmission ∧
      s.currentPhase ≠ GamePhase.WaitingReveal then
    .error (.RequireMsg "Cannot query recipient in this phase")
  else
    .ok (encRecipientIndexOf (s.participantIndex sender)
      s.encryptedMatchingOffset s.participantCount)

/-- `submitGift(...)`: `onlyParticipant` then `inPhase(GiftSubmission)`
modifiers, the deadline and duplicate checks, proof verification inside
`FHE.fromExternal` (modelled by the boolean `proofOk`), the stores and
counter increment, and the automatic advance to WaitingReveal when the
counter reaches the participant count. -/
def submitGift (now sender : ℕ) (giftValue : ℕ) (proofOk : Bool)
    (uri : String) (s : State) : Except SolError State :=
  if ¬ s.isParticipant sender then .error .NotRegistered
  else if s.currentPhase ≠ GamePhase.GiftSubmission then .error .InvalidPhase
  else if s.giftSubmissionDeadline ≤ now then .error .DeadlinePassed
  else if s.hasSubmittedGift sender then .error .AlreadySubmittedGift
  else if ¬ proofOk then .error .InvalidProof
  else
    let newCount := s.giftsSubmittedCount + 1
    .ok { s with
      encryptedGiftValues := Function.update s.encryptedGiftValues sender giftValue
      giftMetadataURIs := Function.update s.giftMetadataURIs sender uri
      hasSubmittedGift := Function.update s.hasSubmittedGift sender true
      giftsSubmittedCount := newCount
      currentPhase :=
        if newCount = s.participantCount then GamePhase.WaitingReveal
        else s.currentPhase }

/-- `triggerReveal(uint32 decryptedOffset)`: `onlyOwner` modifier, the
phase and reveal-time requires, then the advance to Revealed, the stored
offset, and the loop writing `participants[(i + offset) % count]` as the
revealed recipient of `participants[i]`. The `uint32` argument is
embedded by reducing `o` modulo `2 ^ 32`. -/
def triggerReveal (now sender o : ℕ) (s : State) : Except SolError State :=
  if sender ≠ s.owner then .error .OnlyOwner
  else if s.currentPhase ≠ GamePhase.WaitingReveal then
    .error (.RequireMsg "Not ready for reveal")
  else if now < s.revealTime then .error (.RequireMsg "Too early to reveal")
  else
    let off := o % 2 ^ 32
    .ok { s with
      currentPhase := GamePhase.Revealed
      revealedOffset := off
      revealedRecipients :=
        (List.range s.participantCount).foldl
          (fun m i =>
            Function.update m (s.participants.getD i 0)
              (s.participants.getD (recipientIndexOf i off s.participantCount) 0))
          s.revealedRecipients }

/-- `revealGift(address participant, uint64 giftValue)`: `onlyOwner`
modifier, then the phase and participant requires, then the plain store of
the disclosed gift value. -/
def revealGift (sender participant giftValue : ℕ) (s : State) :
    Except SolError State :=
  if sender ≠ s.owner then .error .OnlyOwner
  else if s.currentPhase ≠ GamePhase.Revealed then
    .error (.RequireMsg "Not in reveal phase")
  else if ¬ s.isParticipant participant then .error (.RequireMsg "Not a participant")
  else .ok { s with
    revealedGiftValues := Function.update s.revealedGiftValues participant giftValue }

/-- Number of raw 32-bit random inputs that the offset pipeline of
`_generateMatches` sends to the offset value `o`, for participant count
`n`. -/
def offsetPreimageCount (n o : ℕ) : ℕ :=
  ((Finset.range (2 ^ 32)).filter (fun raw => generateOffsetValue raw n = o)).card

/-! ## Concrete states used by witnesses and counterexamples -/

/-- A concrete game state with three registered participants (addresses
10, 11, 12), still in the Registration phase, reachable by deploying with
durations 100 and registering the three addresses. -/
def baseState : State where
  owner := 0
  registrationDeadline := 100
  giftSubmissionDeadline := 200
  revealTime := 300
  entryFee := 1
  minParticipants := 3
  maxParticipants := 5
  currentPhase := GamePhase.Registration
  participants := [10, 11, 12]
  participantIndex := fun a => if a = 11 then 1 else if a = 12 then 2 else 0
  isParticipant := fun a => a == 10 || a == 11 || a == 12
  participantCount := 3
  encryptedMatchingOffset := 0
  matchingGenerated := false
  encryptedGiftValues := fun _ => 0
  giftMetadataURIs := fun _ => ""
  hasSubmittedGift := fun _ => false
  giftsSubmittedCount := 0
  revealedRecipients := fun _ => 0
  revealedGiftValues := fun _ => 0
  revealedOffset := 0

/-- The base state after matching, in the GiftSubmission phase, with two
of three gifts submitted. -/
def giftPhaseState : State :=
  { baseState with
    currentPhase := GamePhase.GiftSubmission
    encryptedMatchingOffset := 2
    matchingGenerated := true
    hasSubmittedGift := fun a => a == 10 || a == 11
    giftsSubmittedCount := 2 }

/-- The base state after all gifts are in, waiting for the reveal. -/
def waitingState : State :=
  { baseState with
    currentPhase := GamePhase.WaitingReveal
    encryptedMatchingOffset := 2
    matchingGenerated := true
    hasSubmittedGift := fun a => a == 10 || a == 11 || a == 12
    giftsSubmittedCount := 3 }

/-- A revealed state in which no participant ever submitted a gift
(reachability aside, it exercises revealGift on a never-submitted
participant exactly as the contract allows). -/
def revealedState : State :=
  { baseState with
    currentPhase := GamePhase.Revealed
    encryptedMatchingOffset := 2
    matchingGenerated := true }

/-! ## Helper lemmas -/

/-- Characterisation of `(i + o) % n` for summands below `n`. -/
lemma add_mod_cases (i o n : ℕ) (hi : i < n) (ho : o < n) :
    (i + o) % n = if i + o < n then i + o else i + o - n := by
  by_cases h : i + o < n
  · rw [if_pos h, Nat.mod_eq_of_lt h]
  · rw [if_neg h, Nat.mod_eq_sub_mod (by omega), Nat.mod_eq_of_lt (by omega)]

/-- The offset pipeline always lands in `[1, n - 1]` when `n ≥ 2`. -/
lemma generateOffsetValue_range (raw n : ℕ) (hn : 2 ≤ n) :
    1 ≤ generateOffsetValue raw n ∧ generateOffsetValue raw n ≤ n - 1 := by
  unfold generateOffsetValue fheSelect
  have hlt : raw % n < n := Nat.mod_lt _ (by omega)
  by_cases h : raw % n = 0
  · simp only [h, beq_self_eq_true, if_true]
    omega
  · simp only [beq_iff_eq, h, if_false]
    omega

/-! ## C1 -/

/-- C1: for every participant count n at least 2, every offset o in
[1, n-1] and every index i below n, the recipient index (i + o) mod n
differs from i, the map i to (i + o) mod n is a bijection of [0, n), and
the euint32 derivation used by getMyRecipientEncrypted computes the same
index as the plaintext derivation used by the reveal loop (the 32-bit
addition cannot wrap for in-range operands). -/
theorem recipient_map_no_self_and_bijective (n o : ℕ) (hn : 2 ≤ n)
    (ho1 : 1 ≤ o) (ho2 : o ≤ n - 1) :
    (∀ i, i < n → recipientIndexOf i o n ≠ i) ∧
    Set.BijOn (fun i => recipientIndexOf i o n) {i | i < n} {i | i < n} ∧
    (∀ i, i < n → n ≤ 2 ^ 31 → encRecipientIndexOf i o n = recipientIndexOf i o n) := by
  have hon : o < n := by omega
  refine ⟨?_, ⟨?_, ?_, ?_⟩, ?_⟩
  · intro i hi
    rw [recipientIndexOf, add_mod_cases i o n hi hon]
    split <;> omega
  · -- MapsTo
    intro i hi
    exact Nat.mod_lt _ (by omega)
  · -- InjOn
    intro i hi j hj hij
    have hi2 : i < n := hi
    have hj2 : j < n := hj
    simp only [recipientIndexOf] at hij
    rw [add_mod_cases i o n hi2 hon, add_mod_cases j o n hj2 hon] at hij
    split at hij <;> split at hij <;> omega
  · -- SurjOn
    intro j hj
    have hjn : j < n := hj
    by_cases h : o ≤ j
    · refine ⟨j - o, show j - o < n by omega, ?_⟩
      simp only [recipientIndexOf]
      rw [add_mod_cases _ o n (by omega) hon]
      split <;> omega
    · refine ⟨j + n - o, show j + n - o < n by omega, ?_⟩
      simp only [recipientIndexOf]
      rw [add_mod_cases _ o n (by omega) hon]
      split <;> omega
  · intro i hi hn31
    rw [encRecipientIndexOf, recipientIndexOf, Nat.mod_eq_of_lt (show i + o < 2 ^ 32 by
      have : (2 : ℕ) ^ 31 + 2 ^ 31 = 2 ^ 32 := by norm_num
      omega)]

/-- Witness for C1 at n = 3, o = 1. -/
theorem recipient_map_no_self_and_bijective_witness :
    (∀ i, i < 3 → recipientIndexOf i 1 3 ≠ i) ∧
    Set.BijOn (fun i => recipientIndexOf i 1 3) {i | i < 3} {i | i < 3} ∧
    (∀ i, i < 3 → 3 ≤ 2 ^ 31 → encRecipientIndexOf i 1 3 = recipientIndexOf i 1 3) :=
  recipient_map_no_self_and_bijective 3 1 (by decide) (by decide) (by decide)

/-! ## C2 -/

/-- C2: whenever startMatching succeeds on a state with at least two
participants, the stored offset is exactly the value of the pipeline
(reduce the fresh 32-bit random value modulo the count, then replace a
zero candidate with 1 through the conditional select), hence lies in
[1, count - 1] and the induced assignment is not the identity
permutation. -/
theorem startMatching_offset_range (now sender raw : ℕ) (s s2 : State)
    (hrun : startMatching now sender raw s = Except.ok s2)
    (hn : 2 ≤ s.participantCount) :
    s2.encryptedMatchingOffset = generateOffsetValue (raw % 2 ^ 32) s.participantCount ∧
    1 ≤ s2.encryptedMatchingOffset ∧
    s2.encryptedMatchingOffset ≤ s.participantCount - 1 ∧
    recipientIndexOf 0 s2.encryptedMatchingOffset s.participantCount ≠ 0 := by
  unfold startMatching at hrun
  split_ifs at hrun
  have hs2 := Except.ok.inj hrun
  subst hs2
  have hr := generateOffsetValue_range (raw % 2 ^ 32) s.participantCount hn
  refine ⟨rfl, hr.1, hr.2, ?_⟩
  simp only [recipientIndexOf, Nat.zero_add]
  rw [Nat.mod_eq_of_lt (by omega)]
  omega

/-- The state produced by the witness run of startMatching. -/
def startMatchingWitnessState : State :=
  { baseState with
    currentPhase := GamePhase.GiftSubmission
    encryptedMatchingOffset := generateOffsetValue (5 % 2 ^ 32) 3
    matchingGenerated := true }

/-- Witness for C2: a concrete successful startMatching run on the base
state with raw randomness 5. -/
theorem startMatching_offset_range_witness :
    startMatchingWitnessState.encryptedMatchingOffset
      = generateOffsetValue (5 % 2 ^ 32) baseState.participantCount ∧
    1 ≤ startMatchingWitnessState.encryptedMatchingOffset ∧
    startMatchingWitnessState.encryptedMatchingOffset ≤ baseState.participantCount - 1 ∧
    recipientIndexOf 0 startMatchingWitnessState.encryptedMatchingOffset
      baseState.participantCount ≠ 0 :=
  startMatching_offset_range 100 0 5 baseState startMatchingWitnessState rfl (by decide)

/-! ## C5 -/

/-- C5: a successful submitGift call starts from the GiftSubmission
phase, increments the submitted counter by one, and moves the phase to
WaitingReveal exactly when the new counter equals the participant count;
when the counter has not yet reached the count the phase stays
GiftSubmission. The advance happens inside the gift submission itself,
with no separate operator action. -/
theorem submitGift_auto_advance (now sender giftValue : ℕ) (proofOk : Bool)
    (uri : String) (s s2 : State)
    (hrun : submitGift now sender giftValue proofOk uri s = Except.ok s2) :
    s.currentPhase = GamePhase.GiftSubmission ∧
    s2.giftsSubmittedCount = s.giftsSubmittedCount + 1 ∧
    (s2.currentPhase = GamePhase.WaitingReveal ↔
      s.giftsSubmittedCount + 1 = s.participantCount) ∧
    (s.giftsSubmittedCount + 1 ≠ s.participantCount →
      s2.currentPhase = GamePhase.GiftSubmission) := by
  unfold submitGift at hrun
  split_ifs at hrun with h1 h2 h3 h4 h5
  have hph : s.currentPhase = GamePhase.GiftSubmission := by
    by_contra h
    exact h2 h
  have hs2 := Except.ok.inj hrun
  subst hs2
  refine ⟨hph, rfl, ?_, ?_⟩
  · by_cases h : s.giftsSubmittedCount + 1 = s.participantCount
    · simp [h]
    · simp only [if_neg h, hph]
      exact ⟨fun hc => absurd hc (by decide), fun hc => absurd hc h⟩
  · intro h
    simp only [if_neg h, hph]

/-- The state produced by the witness run of submitGift: the third and
last participant submits, so the phase advances to WaitingReveal. -/
def submitGiftWitnessState : State :=
  { giftPhaseState with
    encryptedGiftValues := Function.update giftPhaseState.encryptedGiftValues 12 42
    giftMetadataURIs := Function.update giftPhaseState.giftMetadataURIs 12 "ipfs:x"
    hasSubmittedGift := Function.update giftPhaseState.hasSubmittedGift 12 true
    giftsSubmittedCount := 3
    currentPhase := GamePhase.WaitingReveal }

/-- Witness for C5: the last gift submission on the concrete state
advances the phase. -/
theorem submitGift_auto_advance_witness :
    giftPhaseState.currentPhase = GamePhase.GiftSubmission ∧
    submitGiftWitnessState.giftsSubmittedCount = giftPhaseState.giftsSubmittedCount + 1 ∧
    (submitGiftWitnessState.currentPhase = GamePhase.WaitingReveal ↔
      giftPhaseState.giftsSubmittedCount + 1 = giftPhaseState.participantCount) ∧
    (giftPhaseState.giftsSubmittedCount + 1 ≠ giftPhaseState.participantCount →
      submitGiftWitnessState.currentPhase = GamePhase.GiftSubmission) :=
  submitGift_auto_advance 150 12 42 true "ipfs:x" giftPhaseState submitGiftWitnessState rfl

/-! ## C6 -/

/-- Counterexample for C6: a participant who has already submitted calls
submitGift again after the game has advanced to WaitingReveal; the call
fails with the wrong-phase error, not the duplicate-submission error, so
the second call does not fail with duplicate-submission regardless of
phase. -/
theorem submitGift_duplicate_counterexample :
    waitingState.hasSubmittedGift 10 = true ∧
    submitGift 250 10 7 true "u" waitingState = Except.error SolError.InvalidPhase ∧
    SolError.InvalidPhase ≠ SolError.AlreadySubmittedGift :=
  ⟨rfl, rfl, by decide⟩

/-- C6 amended: a second submitGift from a participant who already
submitted always fails, and it fails with the duplicate-submission error
exactly when the call is made in the GiftSubmission phase before the gift
submission deadline; otherwise the phase or deadline error fires first. -/
theorem submitGift_duplicate_always_fails (s : State)
    (now sender giftValue : ℕ) (proofOk : Bool) (uri : String)
    (hp : s.isParticipant sender = true)
    (hsub : s.hasSubmittedGift sender = true) :
    (∃ e, submitGift now sender giftValue proofOk uri s = Except.error e) ∧
    (submitGift now sender giftValue proofOk uri s
        = Except.error SolError.AlreadySubmittedGift ↔
      (s.currentPhase = GamePhase.GiftSubmission ∧ now < s.giftSubmissionDeadline)) := by
  unfold submitGift
  rw [if_neg (by simp [hp])]
  by_cases h2 : s.currentPhase ≠ GamePhase.GiftSubmission
  · rw [if_pos h2]
    refine ⟨⟨_, rfl⟩, ?_⟩
    constructor
    · intro h
      exact absurd (Except.error.inj h) (by decide)
    · intro h
      exact absurd h.1 h2
  · rw [if_neg h2]
    by_cases h3 : s.giftSubmissionDeadline ≤ now
    · rw [if_pos h3]
      refine ⟨⟨_, rfl⟩, ?_⟩
      constructor
      · intro h
        exact absurd (Except.error.inj h) (by decide)
      · intro h
        omega
    · rw [if_neg h3, if_pos hsub]
      refine ⟨⟨_, rfl⟩, ?_⟩
      constructor
      · intro _
        exact ⟨by_contra fun h => h2 h, by omega⟩
      · intro _
        rfl

/-- Witness for C6 amended, on the WaitingReveal concrete state. -/
theorem submitGift_duplicate_always_fails_witness :
    (∃ e, submitGift 250 10 7 true "u" waitingState = Except.error e) ∧
    (submitGift 250 10 7 true "u" waitingState
        = Except.error SolError.AlreadySubmittedGift ↔
      (waitingState.currentPhase = GamePhase.GiftSubmission ∧
        250 < waitingState.giftSubmissionDeadline)) :=
  submitGift_duplicate_always_fails waitingState 250 10 7 true "u" rfl rfl

/-! ## C7 -/

/-- Counterexample for C7: submitGift called in the Registration phase
(the wrong phase) by an unregistered caller fails with the
registration error, not the wrong-phase error, because the
onlyParticipant modifier runs before the phase modifier. -/
theorem phase_check_order_counterexample :
    baseState.currentPhase ≠ GamePhase.GiftSubmission ∧
    submitGift 50 99 7 true "u" baseState = Except.error SolError.NotRegistered ∧
    SolError.NotRegistered ≠ SolError.InvalidPhase :=
  ⟨by decide, rfl, by decide⟩

/-- C7 amended: register checks the phase first, but the other gated
operations do not: startMatching, triggerReveal and revealGift check
operator authorization before the phase, and submitGift and
getMyRecipientEncrypted check caller registration before the phase, so a
caller failing both checks receives the authorization or registration
error rather than the wrong-phase error. -/
theorem precheck_order (s : State) (now sender msgValue raw giftValue p g o : ℕ)
    (proofOk : Bool) (uri : String) :
    (s.currentPhase ≠ GamePhase.Registration →
      register now sender msgValue s = Except.error SolError.InvalidPhase) ∧
    (sender ≠ s.owner →
      startMatching now sender raw s = Except.error SolError.OnlyOwner) ∧
    (s.isParticipant sender = false →
      submitGift now sender giftValue proofOk uri s
        = Except.error SolError.NotRegistered) ∧
    (s.isParticipant sender = false →
      getMyRecipientEncrypted sender s = Except.error SolError.NotRegistered) ∧
    (sender ≠ s.owner →
      triggerReveal now sender o s = Except.error SolError.OnlyOwner) ∧
    (sender ≠ s.owner →
      revealGift sender p g s = Except.error SolError.OnlyOwner) := by
  refine ⟨?_, ?_, ?_, ?_, ?_, ?_⟩
  · intro h
    unfold register
    rw [if_pos h]
  · intro h
    unfold startMatching
    rw [if_pos h]
  · intro h
    unfold submitGift
    rw [if_pos (by simp [h])]
  · intro h
    unfold getMyRecipientEncrypted
    rw [if_pos (by simp [h])]
  · intro h
    unfold triggerReveal
    rw [if_pos h]
  · intro h
    unfold revealGift
    rw [if_pos h]

/-- Witness for C7 amended: concrete wrong-phase and wrong-caller calls
receiving the first-checked error of each operation. -/
theorem precheck_order_witness :
    register 50 99 1 giftPhaseState = Except.error SolError.InvalidPhase ∧
    startMatching 150 1 5 baseState = Except.error SolError.OnlyOwner ∧
    submitGift 50 99 7 true "u" baseState = Except.error SolError.NotRegistered ∧
    getMyRecipientEncrypted 99 baseState = Except.error SolError.NotRegistered ∧
    triggerReveal 300 1 2 waitingState = Except.error SolError.OnlyOwner ∧
    revealGift 1 10 5 revealedState = Except.error SolError.OnlyOwner :=
  ⟨(precheck_order giftPhaseState 50 99 1 0 0 0 0 0 true "u").1 (by decide),
   (precheck_order baseState 150 1 0 5 0 0 0 0 true "u").2.1 (by decide),
   (precheck_order baseState 50 99 0 0 7 0 0 0 true "u").2.2.1 rfl,
   (precheck_order baseState 50 99 0 0 0 0 0 0 true "u").2.2.2.1 rfl,
   (precheck_order waitingState 300 1 0 0 0 0 0 2 true "u").2.2.2.2.1 (by decide),
   (precheck_order revealedState 0 1 0 0 0 10 5 0 true "u").2.2.2.2.2 (by decide)⟩

/-! ## C8 -/

/-- Counterexample for C8: the constructor accepts zero period durations,
and the resulting instance has registration deadline, gift submission
deadline and reveal time all equal, so the strict chain of the claim
fails for an accepted configuration. -/
theorem deploy_zero_durations_counterexample :
    (deploy 100 7 0 0 0 5 3 3).map
        (fun s => (s.registrationDeadline, s.giftSubmissionDeadline, s.revealTime))
      = Except.ok (100, 100, 100) := rfl

/-- C8 amended: every configuration accepted by the constructor satisfies
registration deadline LE gift-submission deadline LE reveal time (each
deadline is the previous one plus its duration, so the inequalities are
strict exactly when the corresponding durations are positive), together
with 3 LE min LE max LE 256. -/
theorem deploy_config_bounds (now sender rp sp rd fee minP maxP : ℕ) (s : State)
    (hrun : deploy now sender rp sp rd fee minP maxP = Except.ok s) :
    s.registrationDeadline ≤ s.giftSubmissionDeadline ∧
    s.giftSubmissionDeadline ≤ s.revealTime ∧
    (0 < sp → s.registrationDeadline < s.giftSubmissionDeadline) ∧
    (0 < rd → s.giftSubmissionDeadline < s.revealTime) ∧
    3 ≤ s.minParticipants ∧
    s.minParticipants ≤ s.maxParticipants ∧
    s.maxParticipants ≤ 256 := by
  unfold deploy at hrun
  split_ifs at hrun with h1 h2 h3
  have hs := Except.ok.inj hrun
  subst hs
  dsimp only
  omega

/-- The state produced by the witness deployment. -/
def deployWitnessState : State where
  owner := 9
  registrationDeadline := 10
  giftSubmissionDeadline := 20
  revealTime := 30
  entryFee := 1
  minParticipants := 3
  maxParticipants := 5
  currentPhase := GamePhase.Registration
  participants := []
  participantIndex := fun _ => 0
  isParticipant := fun _ => false
  participantCount := 0
  encryptedMatchingOffset := 0
  matchingGenerated := false
  encryptedGiftValues := fun _ => 0
  giftMetadataURIs := fun _ => ""
  hasSubmittedGift := fun _ => false
  giftsSubmittedCount := 0
  revealedRecipients := fun _ => 0
  revealedGiftValues := fun _ => 0
  revealedOffset := 0

/-- Witness for C8 amended: a concrete accepted deployment. -/
theorem deploy_config_bounds_witness :
    deployWitnessState.registrationDeadline ≤ deployWitnessState.giftSubmissionDeadline ∧
    deployWitnessState.giftSubmissionDeadline ≤ deployWitnessState.revealTime ∧
    (0 < 10 → deployWitnessState.registrationDeadline
      < deployWitnessState.giftSubmissionDeadline) ∧
    (0 < 10 → deployWitnessState.giftSubmissionDeadline < deployWitnessState.revealTime) ∧
    3 ≤ deployWitnessState.minParticipants ∧
    deployWitnessState.minParticipants ≤ deployWitnessState.maxParticipants ∧
    deployWitnessState.maxParticipants ≤ 256 :=
  deploy_config_bounds 0 9 10 10 10 1 3 5 deployWitnessState rfl

/-! ## C10 -/

/-- C10: revealGift is not write-once and does not require a submitted
gift: in the Revealed phase, for any registered participant p, two
successive operator calls with values v1 then v2 both succeed, the first
stores v1 and the second overwrites it with v2; no check of the
gift-submitted flag is involved. -/
theorem revealGift_overwrites (s : State) (p v1 v2 : ℕ)
    (hph : s.currentPhase = GamePhase.Revealed)
    (hp : s.isParticipant p = true) :
    ∃ s1 s2, revealGift s.owner p v1 s = Except.ok s1 ∧
      revealGift s.owner p v2 s1 = Except.ok s2 ∧
      s1.revealedGiftValues p = v1 ∧
      s2.revealedGiftValues p = v2 := by
  refine ⟨{ s with revealedGiftValues := Function.update s.revealedGiftValues p v1 },
    { s with revealedGiftValues :=
        Function.update (Function.update s.revealedGiftValues p v1) p v2 },
    ?_, ?_, ?_, ?_⟩
  · unfold revealGift
    rw [if_neg (by simp), if_neg (by simp [hph]), if_neg (by simp [hp])]
  · unfold revealGift
    rw [if_neg (by simp), if_neg (by simp [hph]), if_neg (by simp [hp])]
  · exact Function.update_same p v1 s.revealedGiftValues
  · exact Function.update_same p v2 (Function.update s.revealedGiftValues p v1)

/-- Witness for C10: participant 10 of the revealed concrete state, who
never submitted a gift, gets value 1 stored and then overwritten by 2. -/
theorem revealGift_overwrites_witness :
    revealedState.hasSubmittedGift 10 = false ∧
    ∃ s1 s2, revealGift revealedState.owner 10 1 revealedState = Except.ok s1 ∧
      revealGift revealedState.owner 10 2 s1 = Except.ok s2 ∧
      s1.revealedGiftValues 10 = 1 ∧
      s2.revealedGiftValues 10 = 2 :=
  ⟨rfl, revealGift_overwrites revealedState 10 1 2 rfl rfl⟩

/-! ## The reveal loop -/

/-- A fold of pointwise updates leaves every key not written by the list
unchanged. -/
lemma foldl_update_apply_ne (l : List ℕ) (k v : ℕ → ℕ) (m : ℕ → ℕ) (x : ℕ)
    (hx : ∀ j ∈ l, k j ≠ x) :
    l.foldl (fun acc j => Function.update acc (k j) (v j)) m x = m x := by
  induction l generalizing m with
  | nil => rfl
  | cons a t ih =>
    simp only [List.foldl_cons]
    rw [ih _ (fun j hj => hx j (List.mem_cons_of_mem a hj))]
    exact Function.update_noteq (Ne.symm (hx a (List.mem_cons_self a t))) _ _

/-- A fold of pointwise updates with injective keys stores, at the key of
each listed element, the value of that element. -/
lemma foldl_update_apply_eq (l : List ℕ) (k v : ℕ → ℕ) (m : ℕ → ℕ) (i : ℕ)
    (hi : i ∈ l) (hnd : l.Nodup)
    (hinj : ∀ a ∈ l, ∀ b ∈ l, k a = k b → a = b) :
    l.foldl (fun acc j => Function.update acc (k j) (v j)) m (k i) = v i := by
  induction l generalizing m with
  | nil => cases hi
  | cons a t ih =>
    simp only [List.foldl_cons]
    rcases List.mem_cons.mp hi with rfl | hit
    · rw [foldl_update_apply_ne]
      · exact Function.update_same _ _ _
      · intro j hj hkj
        have hji : j = i :=
          hinj j (List.mem_cons_of_mem _ hj) i (List.mem_cons_self _ _) hkj
        subst hji
        exact (List.nodup_cons.mp hnd).1 hj
    · exact ih _ hit (List.nodup_cons.mp hnd).2
        (fun a2 ha2 b hb =>
          hinj a2 (List.mem_cons_of_mem _ ha2) b (List.mem_cons_of_mem _ hb))

/-- Any triggerReveal call with a wrong caller, a phase other than
WaitingReveal, or a timestamp before the reveal time reverts. -/
lemma triggerReveal_fails (now sender o : ℕ) (s : State)
    (h : sender ≠ s.owner ∨ s.currentPhase ≠ GamePhase.WaitingReveal ∨
      now < s.revealTime) :
    ∃ e, triggerReveal now sender o s = Except.error e := by
  unfold triggerReveal
  by_cases h1 : sender ≠ s.owner
  · rw [if_pos h1]
    exact ⟨_, rfl⟩
  · rw [if_neg h1]
    by_cases h2 : s.currentPhase ≠ GamePhase.WaitingReveal
    · rw [if_pos h2]
      exact ⟨_, rfl⟩
    · rw [if_neg h2]
      have h3 : now < s.revealTime := by tauto
      rw [if_pos h3]
      exact ⟨_, rfl⟩

/-- A triggerReveal call by the owner in the WaitingReveal phase at or
after the reveal time succeeds and stores, for every participant index i,
the participant at index (i + offset) mod count as the revealed recipient
of the participant at index i. -/
lemma triggerReveal_run (now o : ℕ) (s : State)
    (hlen : s.participants.length = s.participantCount)
    (hnd : s.participants.Nodup)
    (hph : s.currentPhase = GamePhase.WaitingReveal)
    (htime : s.revealTime ≤ now) :
    ∃ s2, triggerReveal now s.owner o s = Except.ok s2 ∧
      s2.currentPhase = GamePhase.Revealed ∧
      s2.owner = s.owner ∧
      s2.revealTime = s.revealTime ∧
      (∀ i, i < s.participantCount →
        s2.revealedRecipients (s.participants.getD i 0) =
          s.participants.getD (recipientIndexOf i (o % 2 ^ 32) s.participantCount) 0) := by
  refine ⟨{ s with
      currentPhase := GamePhase.Revealed
      revealedOffset := o % 2 ^ 32
      revealedRecipients :=
        (List.range s.participantCount).foldl
          (fun m i =>
            Function.update m (s.participants.getD i 0)
              (s.participants.getD
                (recipientIndexOf i (o % 2 ^ 32) s.participantCount) 0))
          s.revealedRecipients }, ?_, rfl, rfl, rfl, ?_⟩
  · unfold triggerReveal
    rw [if_neg (by simp), if_neg (by simp [hph]), if_neg (by omega)]
  · intro i hi
    dsimp only
    exact foldl_update_apply_eq (List.range s.participantCount)
      (fun j => s.participants.getD j 0)
      (fun j => s.participants.getD (recipientIndexOf j (o % 2 ^ 32) s.participantCount) 0)
      s.revealedRecipients i (List.mem_range.mpr hi) (List.nodup_range _)
      (by
        intro a ha b hb hab
        have ha2 : a < s.participants.length := by
          rw [hlen]; exact List.mem_range.mp ha
        have hb2 : b < s.participants.length := by
          rw [hlen]; exact List.mem_range.mp hb
        dsimp only at hab
        rw [List.getD_eq_getElem _ _ ha2, List.getD_eq_getElem _ _ hb2] at hab
        exact (hnd.getElem_inj_iff).mp hab)

/-! ## C4 -/

/-- C4: triggerReveal called by the operator strictly before the reveal
time always fails; called at or after the reveal time in the
WaitingReveal phase it succeeds, moves the phase to Revealed so that any
second call (by anyone, at any time) fails, and stores, for every
participant index i below the count, the participant at index
(i + plaintextOffset) mod count as the revealed recipient of the
participant at index i. -/
theorem triggerReveal_gating_and_pairs (s : State) (now o : ℕ)
    (hlen : s.participants.length = s.participantCount)
    (hnd : s.participants.Nodup)
    (ho : o < 2 ^ 32) :
    (∀ now2 o2, now2 < s.revealTime →
      ∃ e, triggerReveal now2 s.owner o2 s = Except.error e) ∧
    (s.currentPhase = GamePhase.WaitingReveal → s.revealTime ≤ now →
      ∃ s2, triggerReveal now s.owner o s = Except.ok s2 ∧
        s2.currentPhase = GamePhase.Revealed ∧
        (∀ now3 sender3 o3, ∃ e, triggerReveal now3 sender3 o3 s2 = Except.error e) ∧
        (∀ i, i < s.participantCount →
          s2.revealedRecipients (s.participants.getD i 0) =
            s.participants.getD (recipientIndexOf i o s.participantCount) 0)) := by
  constructor
  · intro now2 o2 hlt
    exact triggerReveal_fails now2 s.owner o2 s (Or.inr (Or.inr hlt))
  · intro hph htime
    obtain ⟨s2, hrun, hph2, _, _, hpairs⟩ := triggerReveal_run now o s hlen hnd hph htime
    refine ⟨s2, hrun, hph2, ?_, ?_⟩
    · intro now3 sender3 o3
      apply triggerReveal_fails
      right; left
      rw [hph2]
      decide
    · intro i hi
      have := hpairs i hi
      rwa [Nat.mod_eq_of_lt ho] at this

/-- Witness for C4 on the concrete WaitingReveal state with offset 1. -/
theorem triggerReveal_gating_and_pairs_witness :
    (∀ now2 o2, now2 < waitingState.revealTime →
      ∃ e, triggerReveal now2 waitingState.owner o2 waitingState = Except.error e) ∧
    (waitingState.currentPhase = GamePhase.WaitingReveal →
      waitingState.revealTime ≤ 300 →
      ∃ s2, triggerReveal 300 waitingState.owner 1 waitingState = Except.ok s2 ∧
        s2.currentPhase = GamePhase.Revealed ∧
        (∀ now3 sender3 o3, ∃ e, triggerReveal now3 sender3 o3 s2 = Except.error e) ∧
        (∀ i, i < waitingState.participantCount →
          s2.revealedRecipients (waitingState.participants.getD i 0) =
            waitingState.participants.getD
              (recipientIndexOf i 1 waitingState.participantCount) 0)) :=
  triggerReveal_gating_and_pairs waitingState 300 1 rfl (by decide) (by norm_num)

/-! ## C9 -/

/-- C9: triggerReveal performs no range validation on the supplied
plaintext offset: in the WaitingReveal phase at or after the reveal time,
any 32-bit offset whose remainder modulo the participant count is zero
(offset 0 included) is accepted, and the call stores every participant as
their own revealed recipient, so the no-self-match guarantee does not
hold at the reveal interface. -/
theorem triggerReveal_zero_offset_self_match (s : State) (now o : ℕ)
    (hlen : s.participants.length = s.participantCount)
    (hnd : s.participants.Nodup)
    (hph : s.currentPhase = GamePhase.WaitingReveal)
    (htime : s.revealTime ≤ now)
    (ho : o < 2 ^ 32)
    (hmod : o % s.participantCount = 0) :
    ∃ s2, triggerReveal now s.owner o s = Except.ok s2 ∧
      s2.currentPhase = GamePhase.Revealed ∧
      (∀ i, i < s.participantCount →
        s2.revealedRecipients (s.participants.getD i 0) = s.participants.getD i 0) := by
  obtain ⟨s2, hrun, hph2, _, _, hpairs⟩ := triggerReveal_run now o s hlen hnd hph htime
  refine ⟨s2, hrun, hph2, ?_⟩
  intro i hi
  have h := hpairs i hi
  rw [Nat.mod_eq_of_lt ho] at h
  rwa [recipientIndexOf, Nat.add_mod, hmod, Nat.add_zero, Nat.mod_mod_of_dvd,
    Nat.mod_eq_of_lt hi] at h
  exact dvd_refl _

/-- Witness for C9: offset 0 on the concrete WaitingReveal state makes
every participant their own recipient. -/
theorem triggerReveal_zero_offset_self_match_witness :
    ∃ s2, triggerReveal 300 waitingState.owner 0 waitingState = Except.ok s2 ∧
      s2.currentPhase = GamePhase.Revealed ∧
      (∀ i, i < waitingState.participantCount →
        s2.revealedRecipients (waitingState.participants.getD i 0) =
          waitingState.participants.getD i 0) :=
  triggerReveal_zero_offset_self_match waitingState 300 0 rfl (by decide) rfl
    (by decide) (by norm_num) (by decide)

/-! ## C3: distribution of the offset pipeline -/

/-- For target offsets of at least 2, the pipeline hits the target
exactly on the raw values with that residue. -/
lemma generateOffsetValue_eq_iff_of_two_le (n o raw : ℕ) (ho : 2 ≤ o) :
    generateOffsetValue raw n = o ↔ raw % n = o := by
  unfold generateOffsetValue fheSelect
  by_cases h : raw % n = 0
  · rw [if_pos (by simp [h])]
    omega
  · rw [if_neg (by simp [h])]

/-- The pipeline hits offset 1 both on residue 0 (folded to 1 by the
select) and on residue 1. -/
lemma generateOffsetValue_eq_one_iff (n raw : ℕ) :
    generateOffsetValue raw n = 1 ↔ (raw % n = 0 ∨ raw % n = 1) := by
  unfold generateOffsetValue fheSelect
  by_cases h : raw % n = 0
  · rw [if_pos (by simp [h])]
    omega
  · rw [if_neg (by simp [h])]
    omega

/-- Number of values below `N` with residue `k` modulo `n`. -/
lemma card_range_filter_mod_eq (N n k : ℕ) (hn : 0 < n) (hk : k < n) :
    ((Finset.range N).filter (fun x => x % n = k)).card =
      N / n + if k < N % n then 1 else 0 := by
  have hk2 : k % n = k := Nat.mod_eq_of_lt hk
  have h1 : ((Finset.range N).filter (fun x => x % n = k))
      = ((Finset.range N).filter (fun x => x ≡ k [MOD n])) := by
    apply Finset.filter_congr
    intro x _
    show (x % n = k) ↔ (x % n = k % n)
    rw [hk2]
  rw [h1, ← Nat.count_eq_card_filter_range, Nat.count_modEq_card N hn k, hk2]

/-- Closed form for the preimage count of an offset of at least 2. -/
lemma offsetPreimageCount_of_two_le (n o : ℕ) (hn : o < n) (ho : 2 ≤ o) :
    offsetPreimageCount n o = 2 ^ 32 / n + if o < 2 ^ 32 % n then 1 else 0 := by
  unfold offsetPreimageCount
  rw [Finset.filter_congr
    (fun raw _ => generateOffsetValue_eq_iff_of_two_le n o raw ho)]
  exact card_range_filter_mod_eq (2 ^ 32) n o (by omega) hn

/-- Closed form for the preimage count of offset 1: the residue-0 mass is
folded onto it. -/
lemma offsetPreimageCount_one (n : ℕ) (hn : 2 ≤ n) :
    offsetPreimageCount n 1 =
      (2 ^ 32 / n + if 0 < 2 ^ 32 % n then 1 else 0) +
      (2 ^ 32 / n + if 1 < 2 ^ 32 % n then 1 else 0) := by
  unfold offsetPreimageCount
  rw [Finset.filter_congr (fun raw _ => generateOffsetValue_eq_one_iff n raw)]
  rw [Finset.filter_or, Finset.card_union_of_disjoint]
  · rw [card_range_filter_mod_eq (2 ^ 32) n 0 (by omega) (by omega),
      card_range_filter_mod_eq (2 ^ 32) n 1 (by omega) (by omega)]
  · rw [Finset.disjoint_left]
    intro x hx1 hx2
    simp only [Finset.mem_filter] at hx1 hx2
    omega

/-- Counterexample for C3: for participant count 3, the pipeline sends
2863311531 of the 2 to the 32 raw inputs to offset 1 but only 1431655765
to offset 2, so the preimage counts of the two offsets differ and the
distribution is not uniform. -/
theorem offset_distribution_counterexample :
    offsetPreimageCount 3 1 = 2863311531 ∧
    offsetPreimageCount 3 2 = 1431655765 ∧
    offsetPreimageCount 3 1 ≠ offsetPreimageCount 3 2 := by
  have h1 := offsetPreimageCount_one 3 (by norm_num)
  have h2 := offsetPreimageCount_of_two_le 3 2 (by norm_num) (by norm_num)
  have hd : (2 : ℕ) ^ 32 / 3 = 1431655765 := by norm_num
  have hm : (2 : ℕ) ^ 32 % 3 = 1 := by norm_num
  rw [hd, hm] at h1 h2
  rw [h1, h2]
  norm_num

/-- C3 amended: the pipeline always produces an offset in [1, n-1], but
given a uniform 32-bit random source its output is not uniform: for every
participant count n of at least 3, offset 1 receives strictly more of the
2 to the 32 raw inputs than any other offset o in [2, n-1], because the
residue-0 mass is folded onto offset 1 and 2 to the 32 is not a multiple
of n in general. -/
theorem offset_one_overrepresented (n o : ℕ) (hn : 3 ≤ n) (ho2 : 2 ≤ o)
    (hon : o ≤ n - 1) :
    offsetPreimageCount n o < offsetPreimageCount n 1 := by
  have h1 := offsetPreimageCount_one n (by omega)
  have h2 := offsetPreimageCount_of_two_le n o (by omega) ho2
  rw [h1, h2]
  have h32 : (2 : ℕ) ^ 32 = 4294967296 := by norm_num
  have hqr : 0 < 2 ^ 32 / n ∨ 2 ^ 32 % n = 4294967296 := by
    rcases Nat.lt_or_ge (2 ^ 32) n with hlt | hge
    · right
      rw [Nat.mod_eq_of_lt hlt, h32]
    · left
      exact Nat.div_pos hge (by omega)
  clear h1 h2
  obtain ⟨q, hq⟩ : ∃ x, x = 2 ^ 32 / n := ⟨_, rfl⟩
  obtain ⟨r, hr⟩ : ∃ x, x = 2 ^ 32 % n := ⟨_, rfl⟩
  rw [← hq, ← hr] at hqr ⊢
  rcases hqr with h | h <;> split_ifs <;> omega

/-- Witness for C3 amended, at n = 3, o = 2. -/
theorem offset_one_overrepresented_witness :
    offsetPreimageCount 3 2 < offsetPreimageCount 3 1 :=
  offset_one_overrepresented 3 2 (by norm_num) (by norm_num) (by norm_num)

end SecretSanta
